import Mathlib

/-!
Verification of `generate_sample_airline_data.py`.

The script builds a synthetic airline-fare dataset: sequential ids, random
airline names, random source/destination airport indices with a repair loop
enforcing `source != destination`, uniform fares rounded to 2 decimals, and
random dates in the 365-day window before generation time; the rows are then
serialized as CSV (header plus one line per record), with the file write
wrapped in a try/except.

Randomness is modelled by explicit draw streams `Nat -> Nat` (resp. `Nat -> Rat`
for the fare draws); a call `np.random.randint(0, k, m)` consuming the next
`m` values of a stream is modelled by reducing the stream values mod `k`.
Python floats are modelled by rationals, datetimes by seconds since an epoch
that falls on a midnight.
-/

namespace AirlineData

/-- The hard-coded airline vocabulary (`airline_names` in the script). -/
def airline_names : List String :=
  ["AirTravel", "SkyLink", "GlobalWings", "SwiftAir", "HorizonFly",
   "PacificJets", "AtlanticRoute", "ContinentalLine", "StarFlight",
   "ApexAirlines", "BlueSky Airways", "Eagle Air", "Freedom Fly",
   "Voyage Airlines", "Zenith Airways", "Northwind Air", "SouthBound Flights"]

/-- The hard-coded airport vocabulary (`airports` in the script). -/
def airports : List String :=
  ["LAX", "JFK", "ORD", "DFW", "DEN", "SFO", "SEA", "CLT", "MIA", "PHX",
   "ATL", "BOS", "IAD", "EWR", "MCO", "LAS", "DTW", "PHL", "MSP", "IAH",
   "LHR", "CDG", "DXB", "HND", "PEK", "PVG", "SIN", "SYD", "FRA", "AMS"]

/-- `a == b` test used by `source_indices == destination_indices`. -/
def collides (a b : ℕ) : Bool := a == b

/-- `np.any(source_indices == destination_indices)`: pointwise equality mask
followed by a disjunction. -/
def anyCollision (s d : List ℕ) : Bool := (List.zipWith collides s d).any id

/-- One repair assignment `destination_indices[mask] = np.random.randint(0,
len(airports), np.sum(mask))`: walk `s` and `d` in parallel, replace `d i` by
the next fresh draw exactly where `s i = d i`, keep `d i` elsewhere.  `c` is
the index of the next unconsumed value of the draw stream; the second
component returns the updated index (`c` plus the number of masked
positions). -/
def redrawMasked (ρ : ℕ → ℕ) : ℕ → List ℕ → List ℕ → List ℕ × ℕ
  | c, a :: s, b :: d =>
    if a = b then
      let r := redrawMasked ρ (c + 1) s d
      ((ρ c % airports.length) :: r.1, r.2)
    else
      let r := redrawMasked ρ c s d
      (b :: r.1, r.2)
  | c, _, d => (d, c)

/-- The `while np.any(source_indices == destination_indices)` repair loop.
The loop state is the pair of index arrays; a round rewrites only the
destination component.  The source has no guaranteed bound on the number of
rounds, so the embedding takes a fuel argument and returns `none` when the
fuel is exhausted while a collision is still present: a `some` result is one
the real loop actually reaches. -/
def repairLoop (ρ : ℕ → ℕ) : ℕ → ℕ → List ℕ × List ℕ → Option (List ℕ × List ℕ)
  | 0, _, p => if anyCollision p.1 p.2 then none else some p
  | fuel + 1, c, p =>
    if anyCollision p.1 p.2 then
      let r := redrawMasked ρ c p.1 p.2
      repairLoop ρ fuel r.2 (p.1, r.1)
    else some p

/-- Number of colliding positions strictly before position `i`. -/
def collisionsBefore (s d : List ℕ) (i : ℕ) : ℕ :=
  ((List.zipWith collides s d).take i).count true

/-- `np.round(x, 2)` on the rational model of a float, returned in cents:
multiply by 100 and round to the nearest integer, ties to the even integer
(IEEE / numpy round-half-to-even). -/
def round2cents (x : ℚ) : ℤ :=
  if x * 100 - ⌊x * 100⌋ < 1/2 then ⌊x * 100⌋
  else if 1/2 < x * 100 - ⌊x * 100⌋ then ⌊x * 100⌋ + 1
  else if Even ⌊x * 100⌋ then ⌊x * 100⌋ else ⌊x * 100⌋ + 1

example : round2cents (7234/10) = 72340 := by norm_num [round2cents]
example : round2cents (123456/1000) = 12346 := by norm_num [round2cents]
example : round2cents (123455/1000) = 12346 := by norm_num [round2cents, Int.even_iff]
example : round2cents (123445/1000) = 12344 := by norm_num [round2cents, Int.even_iff]

/-- How pandas `to_csv` prints a float that is an exact multiple of `1/100`
(the fares after `np.round(_, 2)`): the shortest decimal that denotes the
value, with at least one digit after the point. -/
def fareStr (q : ℚ) : String :=
  if ⌊q * 100⌋ % 100 = 0 then toString (⌊q * 100⌋ / 100) ++ "." ++ "0"
  else if ⌊q * 100⌋ % 10 = 0 then
    toString (⌊q * 100⌋ / 100) ++ "." ++ String.mk [Nat.digitChar ((⌊q * 100⌋ / 10 % 10).toNat)]
  else
    toString (⌊q * 100⌋ / 100) ++ "." ++
      String.mk [Nat.digitChar ((⌊q * 100⌋ / 10 % 10).toNat), Nat.digitChar ((⌊q * 100⌋ % 10).toNat)]

example : fareStr (7234/10) = "723.4" := by
  have h : ⌊(7234/10 : ℚ) * 100⌋ = 72340 := by norm_num
  unfold fareStr
  rw [h]
  decide

example : fareStr 723 = "723.0" := by
  have h : ⌊(723 : ℚ) * 100⌋ = 72300 := by norm_num
  unfold fareStr
  rw [h]
  decide

example : fareStr (72345/100) = "723.45" := by
  have h : ⌊(72345/100 : ℚ) * 100⌋ = 72345 := by norm_num
  unfold fareStr
  rw [h]
  decide

/-- `int((end_date - start_date).total_seconds())` for `timedelta(days=365)`. -/
def totalSeconds : ℕ := 365 * 86400

/-- Year of era (0..399) for a day of era (0..146096), in the March-based
calendar of the standard civil-from-days algorithm `pandas` timestamps
follow. -/
def civilYoe (doe : ℕ) : ℕ := (doe - doe / 1460 + doe / 36524 - doe / 146096) / 365

/-- Day within the March-based year (0..365). -/
def civilDoy (doe : ℕ) : ℕ :=
  doe - (365 * civilYoe doe + civilYoe doe / 4 - civilYoe doe / 100)

/-- March-based month index (0 = March .. 11 = February). -/
def civilMp (doe : ℕ) : ℕ := (5 * civilDoy doe + 2) / 153

/-- Civil month (1..12). -/
def civilM (doe : ℕ) : ℕ := if civilMp doe < 10 then civilMp doe + 3 else civilMp doe - 9

/-- Civil day of month (1..31). -/
def civilD (doe : ℕ) : ℕ := civilDoy doe - (153 * civilMp doe + 2) / 5 + 1

/-- March-based year for a count of days since 1970-01-01. -/
def civilY (z : ℕ) : ℕ := civilYoe ((z + 719468) % 146097) + ((z + 719468) / 146097) * 400

/-- Civil calendar date `(y, m, d)` from a count of days since 1970-01-01
(proleptic Gregorian, the conversion `pandas` timestamps use). -/
def civilFromDays (z : ℕ) : ℕ × ℕ × ℕ :=
  (if civilM ((z + 719468) % 146097) ≤ 2 then civilY z + 1 else civilY z,
   civilM ((z + 719468) % 146097), civilD ((z + 719468) % 146097))

example : civilFromDays 0 = (1970, 1, 1) := by decide
example : civilFromDays 20373 = (2025, 10, 12) := by decide
example : civilFromDays 11016 = (2000, 2, 29) := by decide
example : civilFromDays 19782 = (2024, 2, 29) := by decide
example : civilFromDays 19783 = (2024, 3, 1) := by decide
example : civilFromDays 59 = (1970, 3, 1) := by decide
example : civilFromDays 364 = (1970, 12, 31) := by decide

/-- Gregorian leap-year test. -/
def isLeap (y : ℕ) : Bool := (y % 4 == 0 && y % 100 != 0) || y % 400 == 0

/-- Length of month `m` of year `y`. -/
def daysInMonth (y m : ℕ) : ℕ :=
  if m = 2 then (if isLeap y then 29 else 28)
  else if m = 4 ∨ m = 6 ∨ m = 9 ∨ m = 11 then 30 else 31

/-- Zero-pad a number to two digits, as `%m` / `%d` do. -/
def pad2 (n : ℕ) : String := if n < 10 then "0" ++ toString n else toString n

/-- Zero-pad a number to four digits, as `%Y` does for the years at hand. -/
def pad4 (n : ℕ) : String :=
  if n < 10 then "000" ++ toString n
  else if n < 100 then "00" ++ toString n
  else if n < 1000 then "0" ++ toString n
  else toString n

/-- `strftime('%Y-%m-%d')`: only the calendar date, no time-of-day. -/
def formatDate (ymd : ℕ × ℕ × ℕ) : String :=
  pad4 ymd.1 ++ "-" ++ pad2 ymd.2.1 ++ "-" ++ pad2 ymd.2.2

/-- The timestamp (seconds since the epoch) of sample `i`'s update date:
`start_date + random_seconds_offsets[i]` where `start_date = now - 365 days`
and the offset is a `randint(0, total_seconds)` draw. -/
def updatedTimestamp (now : ℕ) (off : ℕ) : ℕ :=
  now - totalSeconds + off % totalSeconds

/-- The serialized `updated_date` string for one sample. -/
def updatedDateStr (now : ℕ) (off : ℕ) : String :=
  formatDate (civilFromDays (updatedTimestamp now off / 86400))

/-- The six parallel columns the script assembles into the DataFrame. -/
structure Dataset where
  ids : List ℕ
  airlines : List String
  sources : List String
  destinations : List String
  fares : List ℚ
  dates : List String
deriving Repr, DecidableEq, Inhabited

/-- The independent random draw streams the script consumes
(`np.random.choice`, the two initial `randint` arrays, the redraws inside the
repair loop, `np.random.uniform`, and the date offsets). -/
structure Streams where
  airlineDraw : ℕ → ℕ
  sourceDraw : ℕ → ℕ
  destDraw : ℕ → ℕ
  redrawDraw : ℕ → ℕ
  fareDraw : ℕ → ℚ
  dateDraw : ℕ → ℕ

/-- The data-generation part of `generate_airline_fares_csv`: ids, airline
names, source/destination indices with the repair loop, fares, dates.
Fuel bounds the number of repair rounds the embedding may unfold; `none`
means the loop was still running when the fuel ran out. -/
def generateDataset (n : ℕ) (now : ℕ) (rs : Streams) (fuel : ℕ) : Option Dataset :=
  match repairLoop rs.redrawDraw fuel 0
      ((List.range n).map fun i => rs.sourceDraw i % airports.length,
       (List.range n).map fun i => rs.destDraw i % airports.length) with
  | none => none
  | some p =>
    some {
      ids := List.range n
      airlines := (List.range n).map fun i =>
        airline_names.getD (rs.airlineDraw i % airline_names.length) ""
      sources := p.1.map fun v => airports.getD v ""
      destinations := p.2.map fun v => airports.getD v ""
      fares := (List.range n).map fun i => (round2cents (rs.fareDraw i) : ℚ) / 100
      dates := (List.range n).map fun i => updatedDateStr now (rs.dateDraw i) }

/-- The exact header `to_csv` writes for this DataFrame with `index=False`. -/
def header : String := "id,airline_name,source,destination,fare,updated_date"

/-- The six fields of row `i`, in column order, as `to_csv` renders them
(no leading index field, because of `index=False`). -/
def rowFields (ds : Dataset) (i : ℕ) : List String :=
  [toString (ds.ids.getD i 0), ds.airlines.getD i "", ds.sources.getD i "",
   ds.destinations.getD i "", fareStr (ds.fares.getD i 0), ds.dates.getD i ""]

/-- One serialized data line. -/
def csvRow (ds : Dataset) (i : ℕ) : String := String.intercalate "," (rowFields ds i)

/-- The lines of the written file: the header, then one line per record in
id order. -/
def csvLines (ds : Dataset) : List String :=
  header :: (List.range ds.ids.length).map (csvRow ds)

/-- What a write attempt does: succeed (yielding a byte size for the final
report) or raise an I/O error carrying a message. -/
inductive WriteOutcome where
  | ok (byteSize : ℕ)
  | ioError (msg : String)

/-- Observable behaviour of the `try/except` block around `data.to_csv`. -/
structure SaveResult where
  printed : List String
  raised : Bool
  writeAttempts : ℕ
  deletedPartialFile : Bool
deriving Repr, DecidableEq

/-- The save step of `generate_airline_fares_csv` (lines 88-95): one call to
`to_csv`; on success print a confirmation and the file size, on any exception
print the error with its cause and fall through — nothing is re-raised,
retried, or deleted. -/
def saveToCsv (filename : String) (numSamples : ℕ) (outcome : WriteOutcome) : SaveResult :=
  match outcome with
  | .ok n =>
    { printed := ["Successfully generated '" ++ filename ++ "' with " ++
        toString numSamples ++ " entries.", "File size: " ++ toString n ++ " bytes"]
      raised := false
      writeAttempts := 1
      deletedPartialFile := false }
  | .ioError e =>
    { printed := ["An error occurred while saving the CSV: " ++ e]
      raised := false
      writeAttempts := 1
      deletedPartialFile := false }

theorem redrawMasked_length (ρ : ℕ → ℕ) :
    ∀ (c : ℕ) (s d : List ℕ), (redrawMasked ρ c s d).1.length = d.length := by
  intro c s d
  induction s generalizing c d with
  | nil => cases d <;> simp [redrawMasked]
  | cons a s ih =>
    cases d with
    | nil => simp [redrawMasked]
    | cons b d =>
      by_cases h : a = b <;> simp [redrawMasked, h, ih]

/-- Pointwise description of one repair round: a colliding position `i`
receives the fresh draw number `c + collisionsBefore s d i`, reduced into the
airport index range; a non-colliding position keeps its destination. -/
theorem redrawMasked_getD (ρ : ℕ → ℕ) :
    ∀ (s d : List ℕ) (c i : ℕ), i < s.length → i < d.length →
      (redrawMasked ρ c s d).1.getD i 0 =
        if s.getD i 0 = d.getD i 0 then ρ (c + collisionsBefore s d i) % airports.length
        else d.getD i 0 := by
  intro s
  induction s with
  | nil => intro d c i hi; exact absurd hi (Nat.not_lt_zero i)
  | cons a s ih =>
    intro d c i hs hd
    cases d with
    | nil => exact absurd hd (Nat.not_lt_zero i)
    | cons b d =>
      cases i with
      | zero =>
        by_cases h : a = b <;>
          simp [redrawMasked, h, collisionsBefore, collides]
      | succ i =>
        have hs' : i < s.length := Nat.lt_of_succ_lt_succ hs
        have hd' : i < d.length := Nat.lt_of_succ_lt_succ hd
        by_cases h : a = b
        · have : collisionsBefore (a :: s) (b :: d) (i + 1) =
              collisionsBefore s d i + 1 := by
            simp [collisionsBefore, collides, h, List.count_cons]
          simp only [redrawMasked, if_pos h, List.getD_cons_succ, this]
          rw [ih d (c + 1) i hs' hd']
          have : c + 1 + collisionsBefore s d i = c + (collisionsBefore s d i + 1) := by
            omega
          rw [this]
        · have : collisionsBefore (a :: s) (b :: d) (i + 1) =
              collisionsBefore s d i := by
            simp [collisionsBefore, collides, h, List.count_cons]
          simp only [redrawMasked, if_neg h, List.getD_cons_succ, this]
          exact ih d c i hs' hd'

theorem anyCollision_eq_false_iff :
    ∀ (s d : List ℕ), anyCollision s d = false ↔
      ∀ i, i < s.length → i < d.length → s.getD i 0 ≠ d.getD i 0 := by
  intro s
  induction s with
  | nil => intro d; simp [anyCollision]
  | cons a s ih =>
    intro d
    cases d with
    | nil => simp [anyCollision]
    | cons b d =>
      constructor
      · intro h i hs hd
        have h' : collides a b = false ∧ anyCollision s d = false := by
          simpa [anyCollision, List.any_cons] using h
        cases i with
        | zero =>
          simp only [List.getD_cons_zero]
          simpa [collides] using h'.1
        | succ i =>
          exact (ih d).1 h'.2 i (Nat.lt_of_succ_lt_succ hs) (Nat.lt_of_succ_lt_succ hd)
      · intro h
        have h0 : a ≠ b := by
          have := h 0 (Nat.succ_pos _) (Nat.succ_pos _)
          simpa using this
        have hrest : anyCollision s d = false := by
          refine (ih d).2 ?_
          intro i hs hd
          have := h (i + 1) (Nat.succ_lt_succ hs) (Nat.succ_lt_succ hd)
          simpa using this
        simp [anyCollision, List.any_cons, collides, h0, hrest]
        simpa [anyCollision] using hrest

/-- A successful run of the repair loop keeps the source array untouched,
preserves the length of the destination array, and can only stop in a state
with no collision left. -/
theorem repairLoop_some (ρ : ℕ → ℕ) :
    ∀ (fuel c : ℕ) (s d : List ℕ) (p : List ℕ × List ℕ),
      repairLoop ρ fuel c (s, d) = some p →
      p.1 = s ∧ p.2.length = d.length ∧ anyCollision s p.2 = false := by
  intro fuel
  induction fuel with
  | zero =>
    intro c s d p h
    by_cases hc : anyCollision s d
    · simp [repairLoop, hc] at h
    · simp only [repairLoop] at h
      rw [if_neg (by simpa using hc)] at h
      cases h
      exact ⟨rfl, rfl, by simpa using hc⟩
  | succ fuel ih =>
    intro c s d p h
    by_cases hc : anyCollision s d
    · simp only [repairLoop, hc, if_pos] at h
      obtain ⟨h1, h2, h3⟩ :=
        ih (redrawMasked ρ c s d).2 s (redrawMasked ρ c s d).1 p h
      exact ⟨h1, by rw [h2, redrawMasked_length], h3⟩
    · simp only [repairLoop] at h
      rw [if_neg (by simpa using hc)] at h
      cases h
      exact ⟨rfl, rfl, by simpa using hc⟩

set_option maxHeartbeats 4000000 in
theorem daysBefore_le_iff (y n : ℕ) (hy : y ≤ 399) (hn : n ≤ 146096) :
    (365 * y + y / 4 - y / 100 ≤ n) ↔ (365 * y ≤ n - n/1460 + n/36524 - n/146096) := by
  interval_cases y <;> omega

theorem yoe_spec (n : ℕ) (hn : n ≤ 146096) :
    civilYoe n ≤ 399 ∧ 365 * civilYoe n + civilYoe n / 4 - civilYoe n / 100 ≤ n
      ∧ civilDoy n ≤ 365
      ∧ (civilDoy n = 365 →
          ((civilYoe n + 1) % 4 = 0 ∧ (civilYoe n + 1) % 100 ≠ 0) ∨ (civilYoe n + 1) % 400 = 0) := by
  have hy : civilYoe n = (n - n/1460 + n/36524 - n/146096) / 365 := rfl
  set yoe := civilYoe n with hyoe_def
  have hdoy_def : civilDoy n = n - (365 * yoe + yoe / 4 - yoe / 100) := rfl
  have hyoe : yoe ≤ 399 := by omega
  have h365 : 365 * yoe ≤ n - n/1460 + n/36524 - n/146096 := by omega
  have hP : 365 * yoe + yoe/4 - yoe/100 ≤ n := (daysBefore_le_iff yoe n hyoe hn).mpr h365
  have hsucc : yoe ≤ 398 → 365 * (yoe+1) + (yoe+1)/4 - (yoe+1)/100 ≤ n → False := by
    intro h399 hle
    have := (daysBefore_le_iff (yoe + 1) n (by omega) hn).mp hle
    omega
  have hdoy : n - (365 * yoe + yoe/4 - yoe/100) ≤ 365 := by
    by_cases h399 : yoe ≤ 398
    · by_contra hgt
      exact hsucc h399 (by omega)
    · have h : yoe = 399 := by omega
      rw [h] at hP ⊢
      omega
  refine ⟨hyoe, hP, by omega, ?_⟩
  rw [hdoy_def]
  intro h365'
  by_cases h399 : yoe ≤ 398
  · left
    have hnot : ¬ (365 * (yoe+1) + (yoe+1)/4 - (yoe+1)/100 ≤ n) := fun h => hsucc h399 h
    have b1 : (yoe+1)/4 ≤ yoe/4 + 1 := by omega
    have b2 : yoe/4 ≤ (yoe+1)/4 := by omega
    have b3 : (yoe+1)/100 ≤ yoe/100 + 1 := by omega
    have b4 : yoe/100 ≤ (yoe+1)/100 := by omega
    have b5 : (yoe+1) % 4 = 0 ↔ (yoe+1)/4 = yoe/4 + 1 := by omega
    have b6 : (yoe+1) % 100 = 0 ↔ (yoe+1)/100 = yoe/100 + 1 := by omega
    omega
  · right
    have h : yoe = 399 := by omega
    omega

theorem monthday_spec (doe : ℕ) (hdoy : civilDoy doe ≤ 365) :
    1 ≤ civilM doe ∧ civilM doe ≤ 12 ∧ 1 ≤ civilD doe ∧ civilD doe ≤ 31 ∧
    ((civilM doe = 4 ∨ civilM doe = 6 ∨ civilM doe = 9 ∨ civilM doe = 11) → civilD doe ≤ 30) ∧
    (civilM doe = 2 → civilD doe ≤ 29) ∧
    (civilM doe = 2 → civilD doe = 29 → civilDoy doe = 365) ∧
    (civilM doe ≤ 2 ↔ 10 ≤ civilMp doe) := by
  have hmp_def : civilMp doe = (5 * civilDoy doe + 2) / 153 := rfl
  have hd_def : civilD doe = civilDoy doe - (153 * civilMp doe + 2) / 5 + 1 := rfl
  have hm_def : civilM doe = if civilMp doe < 10 then civilMp doe + 3 else civilMp doe - 9 := rfl
  set doy := civilDoy doe
  set mp := civilMp doe
  set m := civilM doe
  set d := civilD doe
  clear_value doy mp m d
  subst hd_def
  have hmp11 : mp ≤ 11 := by omega
  interval_cases mp <;> simp at hm_def <;> omega

/-- Every day count maps to a valid Gregorian calendar date with year at
least 1970. -/
theorem civilFromDays_valid (z : ℕ) :
    ∃ y m d, civilFromDays z = (y, m, d) ∧ 1 ≤ m ∧ m ≤ 12 ∧ 1 ≤ d ∧
      d ≤ daysInMonth y m ∧ 1970 ≤ y := by
  have hn : (z + 719468) % 146097 ≤ 146096 := by omega
  obtain ⟨h399, hP, hdoy365, hleap⟩ := yoe_spec ((z + 719468) % 146097) hn
  obtain ⟨hm1, hm12, hd1, hd31, h30, h29, h29eq, hm2iff⟩ :=
    monthday_spec ((z + 719468) % 146097) hdoy365
  set doe := (z + 719468) % 146097 with hdoe_def
  set era := (z + 719468) / 146097 with hera_def
  have hY_def : civilY z = civilYoe doe + era * 400 := rfl
  have hera4 : 4 ≤ era := by omega
  have hfeb : civilM doe = 2 → civilD doe ≤ daysInMonth (civilY z + 1) 2 := by
    intro hm2
    by_cases hd29 : civilD doe = 29
    · have hdoy : civilDoy doe = 365 := h29eq hm2 hd29
      have hl := hleap hdoy
      have hleapY : isLeap (civilY z + 1) = true := by
        rw [hY_def]
        simp only [isLeap, Bool.or_eq_true, Bool.and_eq_true, beq_iff_eq, bne_iff_ne,
          ne_eq, decide_eq_true_eq]
        rcases hl with ⟨h4, h100⟩ | h400
        · left
          exact ⟨by omega, by omega⟩
        · right
          omega
      simp only [daysInMonth, if_pos rfl, hleapY, if_true]
      omega
    · have h28 : civilD doe ≤ 28 := by
        have := h29 hm2
        omega
      have hge : 28 ≤ daysInMonth (civilY z + 1) 2 := by
        simp only [daysInMonth, if_pos]
        split <;> omega
      omega
  have hdim : ∀ y, civilM doe ≠ 2 → civilD doe ≤ daysInMonth y (civilM doe) := by
    intro y hne
    unfold daysInMonth
    rw [if_neg hne]
    split
    · exact h30 (by assumption)
    · exact hd31
  have hyear : 1970 ≤ (if civilM doe ≤ 2 then civilY z + 1 else civilY z) := by
    by_cases he5 : 5 ≤ era
    · have : 2000 ≤ civilY z := by rw [hY_def]; omega
      split <;> omega
    · have hera_eq : era = 4 := by omega
      have hdoe_lb : 135080 ≤ doe := by omega
      have hyoe_def : civilYoe doe = (doe - doe/1460 + doe/36524 - doe/146096) / 365 := rfl
      have hyoe_lb : 369 ≤ civilYoe doe := by omega
      by_cases hy370 : 370 ≤ civilYoe doe
      · have : 1970 ≤ civilY z := by rw [hY_def]; omega
        split <;> omega
      · have hy369 : civilYoe doe = 369 := by omega
        have hdoy_def : civilDoy doe =
            doe - (365 * civilYoe doe + civilYoe doe / 4 - civilYoe doe / 100) := rfl
        have hdoy_lb : 306 ≤ civilDoy doe := by
          rw [hdoy_def, hy369]
          omega
        have hmp_def : civilMp doe = (5 * civilDoy doe + 2) / 153 := rfl
        have hmp10 : 10 ≤ civilMp doe := by omega
        have hm2 : civilM doe ≤ 2 := hm2iff.mpr hmp10
        rw [if_pos hm2, hY_def, hy369]
        omega
  refine ⟨if civilM doe ≤ 2 then civilY z + 1 else civilY z, civilM doe, civilD doe,
    rfl, hm1, hm12, hd1, ?_, hyear⟩
  by_cases hm2 : civilM doe = 2
  · rw [if_pos (show civilM doe ≤ 2 by omega), hm2]
    exact hfeb hm2
  · split
    · exact hdim _ hm2
    · exact hdim _ hm2

theorem getD_range_map {α : Type} (f : ℕ → α) (n i : ℕ) (hi : i < n) (d : α) :
    ((List.range n).map f).getD i d = f i := by
  have hlen : i < ((List.range n).map f).length := by simpa using hi
  rw [List.getD_eq_getElem _ _ hlen, List.getElem_map, List.getElem_range]

theorem getD_map_nat {α : Type} (f : ℕ → α) (l : List ℕ) (i : ℕ) (hi : i < l.length) (d : α) :
    (l.map f).getD i d = f (l.getD i 0) := by
  have hlen : i < (l.map f).length := by simpa using hi
  rw [List.getD_eq_getElem _ _ hlen, List.getElem_map, List.getD_eq_getElem _ _ hi]

theorem airports_nodup : airports.Nodup := by decide

theorem airports_getD_inj (a b : ℕ) (ha : a < airports.length) (hb : b < airports.length)
    (h : airports.getD a "" = airports.getD b "") : a = b := by
  rw [List.getD_eq_getElem _ _ ha, List.getD_eq_getElem _ _ hb] at h
  have h2 : airports.get ⟨a, ha⟩ = airports.get ⟨b, hb⟩ := by simpa using h
  have := List.nodup_iff_injective_get.mp airports_nodup h2
  simpa using congrArg Fin.val this

theorem redrawMasked_mem (ρ : ℕ → ℕ) :
    ∀ (c : ℕ) (s d : List ℕ) (x : ℕ), x ∈ (redrawMasked ρ c s d).1 →
      x ∈ d ∨ x < airports.length := by
  intro c s
  induction s generalizing c with
  | nil =>
    intro d x hx
    cases d with
    | nil => simp [redrawMasked] at hx
    | cons b d =>
      simp only [redrawMasked] at hx
      exact Or.inl hx
  | cons a s ih =>
    intro d x hx
    cases d with
    | nil => simp [redrawMasked] at hx
    | cons b d =>
      by_cases hab : a = b
      · simp only [redrawMasked, if_pos hab, List.mem_cons] at hx
        rcases hx with hx | hx
        · right; rw [hx]; exact Nat.mod_lt _ (by decide)
        · rcases ih (c+1) d x hx with h | h
          · exact Or.inl (List.mem_cons_of_mem _ h)
          · exact Or.inr h
      · simp only [redrawMasked, if_neg hab, List.mem_cons] at hx
        rcases hx with hx | hx
        · exact Or.inl (by rw [hx]; exact List.mem_cons_self _ _)
        · rcases ih c d x hx with h | h
          · exact Or.inl (List.mem_cons_of_mem _ h)
          · exact Or.inr h

theorem repairLoop_mem (ρ : ℕ → ℕ) :
    ∀ (fuel c : ℕ) (s d : List ℕ) (p : List ℕ × List ℕ),
      repairLoop ρ fuel c (s, d) = some p → ∀ x ∈ p.2, x ∈ d ∨ x < airports.length := by
  intro fuel
  induction fuel with
  | zero =>
    intro c s d p h x hx
    by_cases hc : anyCollision s d
    · simp [repairLoop, hc] at h
    · simp only [repairLoop] at h
      rw [if_neg (by simpa using hc)] at h
      cases h
      exact Or.inl hx
  | succ fuel ih =>
    intro c s d p h x hx
    by_cases hc : anyCollision s d
    · simp only [repairLoop, hc, if_pos] at h
      rcases ih _ s (redrawMasked ρ c s d).1 p h x hx with h' | h'
      · exact redrawMasked_mem ρ c s d x h'
      · exact Or.inr h'
    · simp only [repairLoop] at h
      rw [if_neg (by simpa using hc)] at h
      cases h
      exact Or.inl hx

/-- A successful generation run, unfolded into its six columns and the
repair-loop result it is built from. -/
theorem generateDataset_some (n now : ℕ) (rs : Streams) (fuel : ℕ) (ds : Dataset)
    (h : generateDataset n now rs fuel = some ds) :
    ∃ p : List ℕ × List ℕ,
      repairLoop rs.redrawDraw fuel 0
        ((List.range n).map fun i => rs.sourceDraw i % airports.length,
         (List.range n).map fun i => rs.destDraw i % airports.length) = some p ∧
      ds.ids = List.range n ∧
      ds.airlines = ((List.range n).map fun i =>
        airline_names.getD (rs.airlineDraw i % airline_names.length) "") ∧
      ds.sources = p.1.map (fun v => airports.getD v "") ∧
      ds.destinations = p.2.map (fun v => airports.getD v "") ∧
      ds.fares = ((List.range n).map fun i => (round2cents (rs.fareDraw i) : ℚ) / 100) ∧
      ds.dates = ((List.range n).map fun i => updatedDateStr now (rs.dateDraw i)) := by
  unfold generateDataset at h
  split at h
  · exact absurd h (by simp)
  · refine ⟨_, by assumption, ?_⟩
    cases h
    simp

/-- C1: source equals destination nowhere in the generated dataset: the
repair loop can only stop with the invariant established, and the rows
assembled from its output inherit it. -/
theorem generated_source_ne_destination (n now fuel : ℕ) (rs : Streams) (ds : Dataset)
    (h : generateDataset n now rs fuel = some ds) (i : ℕ) (hi : i < n) :
    ds.sources.getD i "" ≠ ds.destinations.getD i "" := by
  obtain ⟨p, hrep, _, _, hsrc, hdst, _, _⟩ := generateDataset_some n now rs fuel ds h
  obtain ⟨hp1, hlen, hnocol⟩ := repairLoop_some rs.redrawDraw fuel 0 _ _ p hrep
  have hslen : ((List.range n).map fun i => rs.sourceDraw i % airports.length).length = n := by
    simp
  have hdlen : p.2.length = n := by
    rw [hlen]; simp
  have hne : p.1.getD i 0 ≠ p.2.getD i 0 := by
    have := (anyCollision_eq_false_iff p.1 p.2).mp (by rw [hp1]; exact hnocol)
    exact this i (by rw [hp1, hslen]; exact hi) (by rw [hdlen]; exact hi)
  have hs_lt : p.1.getD i 0 < airports.length := by
    rw [hp1, getD_range_map _ n i hi]
    exact Nat.mod_lt _ (by decide)
  have hd_lt : p.2.getD i 0 < airports.length := by
    have hmem : p.2.getD i 0 ∈ p.2 := by
      rw [List.getD_eq_getElem _ _ (by rw [hdlen]; exact hi)]
      exact List.getElem_mem _
    rcases repairLoop_mem rs.redrawDraw fuel 0 _ _ p hrep _ hmem with h' | h'
    · obtain ⟨j, _, hj⟩ := List.mem_map.mp h'
      rw [← hj]
      exact Nat.mod_lt _ (by decide)
    · exact h'
  rw [hsrc, hdst, getD_map_nat _ _ i (by rw [hp1, hslen]; exact hi),
    getD_map_nat _ _ i (by rw [hdlen]; exact hi)]
  intro hcontra
  exact hne (airports_getD_inj _ _ hs_lt hd_lt hcontra)

theorem generated_source_ne_destination_witness :
    ((generateDataset 1 0
        ⟨fun _ => 0, fun _ => 0, fun _ => 1, fun _ => 0, fun _ => 0, fun _ => 0⟩ 0).getD
      default).sources.getD 0 "" ≠
    ((generateDataset 1 0
        ⟨fun _ => 0, fun _ => 0, fun _ => 1, fun _ => 0, fun _ => 0, fun _ => 0⟩ 0).getD
      default).destinations.getD 0 "" :=
  generated_source_ne_destination 1 0 0
    ⟨fun _ => 0, fun _ => 0, fun _ => 1, fun _ => 0, fun _ => 0, fun _ => 0⟩ _ rfl 0 (by decide)

/-- C2: a repair round keeps every non-colliding destination entry, redraws
exactly the colliding ones with fresh uniform draws over the airport index
range, and a full run of the loop returns the source array untouched. -/
theorem repairRound_frame (ρ : ℕ → ℕ) (c : ℕ) (s d : List ℕ) (i : ℕ)
    (hi : i < s.length) (hlen : d.length = s.length) :
    (s.getD i 0 ≠ d.getD i 0 → (redrawMasked ρ c s d).1.getD i 0 = d.getD i 0)
  ∧ (s.getD i 0 = d.getD i 0 →
      (redrawMasked ρ c s d).1.getD i 0 = ρ (c + collisionsBefore s d i) % airports.length)
  ∧ (∀ fuel c' p, repairLoop ρ fuel c' (s, d) = some p → p.1 = s) := by
  have hid : i < d.length := by rw [hlen]; exact hi
  have hkey := redrawMasked_getD ρ s d c i hi hid
  refine ⟨fun hne => ?_, fun heq => ?_,
    fun fuel c' p hp => (repairLoop_some ρ fuel c' s d p hp).1⟩
  · rw [hkey, if_neg hne]
  · rw [hkey, if_pos heq]

theorem repairRound_frame_witness :
    (redrawMasked (fun _ => 5) 0 [1, 2] [2, 2]).1.getD 0 0 = 2 ∧
    (redrawMasked (fun _ => 5) 0 [1, 2] [2, 2]).1.getD 1 0 = 5 % airports.length :=
  ⟨(repairRound_frame (fun _ => 5) 0 [1, 2] [2, 2] 0 (by decide) (by decide)).1 (by decide),
   by
    have :=
      (repairRound_frame (fun _ => 5) 0 [1, 2] [2, 2] 1 (by decide) (by decide)).2.1 (by decide)
    simpa [collisionsBefore, collides] using this⟩

/-- C3: the vocabulary has at least 2 airports; a single redraw of a
colliding position resolves it in `|airports| - 1` of the `|airports|`
equiprobable cases; over `r` independent rounds exactly one of the
`|airports| ^ r` draw sequences keeps the position colliding, and the
corresponding probability `(1/|airports|) ^ r` tends to 0 — termination with
probability 1; and no iteration cap exists: an adversarial draw stream keeps
the loop running past any bound. -/
theorem repair_termination_probability :
    2 ≤ airports.length
  ∧ (∀ s : Fin airports.length,
      (Finset.univ.filter fun v : Fin airports.length => v ≠ s).card = airports.length - 1)
  ∧ (∀ (s : Fin airports.length) (r : ℕ),
      (Finset.univ.filter fun f : Fin r → Fin airports.length => ∀ t, f t = s).card = 1
      ∧ Fintype.card (Fin r → Fin airports.length) = airports.length ^ r)
  ∧ Filter.Tendsto (fun r : ℕ => ((1 : ℝ) / (airports.length : ℝ)) ^ r)
      Filter.atTop (nhds 0)
  ∧ (∀ fuel c, repairLoop (fun _ => 0) fuel c ([0], [0]) = none) := by
  refine ⟨by decide, ?_, ?_, ?_, ?_⟩
  · intro s
    rw [Finset.filter_ne', Finset.card_erase_of_mem (Finset.mem_univ s)]
    simp
  · intro s r
    constructor
    · rw [Finset.card_eq_one]
      refine ⟨fun _ => s, ?_⟩
      ext f
      simp [funext_iff]
    · rw [Fintype.card_fun]
      simp
  · have h30 : (airports.length : ℝ) = 30 := by norm_num [airports]
    rw [h30]
    exact tendsto_pow_atTop_nhds_zero_of_lt_one (by norm_num) (by norm_num)
  · intro fuel
    induction fuel with
    | zero => intro c; rfl
    | succ fuel ih =>
      intro c
      show repairLoop (fun _ => 0) (fuel + 1) c ([0], [0]) = none
      rw [repairLoop]
      rw [if_pos (by decide)]
      exact ih _

theorem round2cents_bounds (x : ℚ) (h1 : 50 ≤ x) (h2 : x ≤ 1000) :
    5000 ≤ round2cents x ∧ round2cents x ≤ 100000 := by
  unfold round2cents
  have hy1 : (5000 : ℚ) ≤ x * 100 := by linarith
  have hy2 : x * 100 ≤ 100000 := by linarith
  have hf1 : (5000 : ℤ) ≤ ⌊x * 100⌋ := by
    rw [Int.le_floor]
    exact_mod_cast hy1
  have hf2 : ⌊x * 100⌋ ≤ 100000 := by
    have := Int.floor_le_floor (α := ℚ) hy2
    simpa using this
  have hnext : ¬ (x * 100 - ⌊x * 100⌋ < 1/2) → ⌊x * 100⌋ ≤ 99999 := by
    intro hge
    by_contra hgt
    have heq : ⌊x * 100⌋ = 100000 := by omega
    have hle : (100000 : ℚ) ≤ x * 100 := by
      have := Int.floor_le (x * 100)
      rw [heq] at this
      exact_mod_cast this
    have hx : x * 100 = 100000 := le_antisymm hy2 hle
    apply hge
    rw [hx]
    norm_num
  constructor
  · split
    · exact hf1
    · split
      · omega
      · split <;> omega
  · split
    · exact hf2
    · have h99 := hnext (by assumption)
      split
      · omega
      · split <;> omega

/-- C4: every generated fare lies in `[50, 1000]` and is an exact multiple
of a cent, provided the uniform draws respect their `[50, 1000]` range. -/
theorem generated_fare_bounds (n now fuel : ℕ) (rs : Streams) (ds : Dataset)
    (h : generateDataset n now rs fuel = some ds)
    (hdraw : ∀ i, 50 ≤ rs.fareDraw i ∧ rs.fareDraw i ≤ 1000) (i : ℕ) (hi : i < n) :
    50 ≤ ds.fares.getD i 0 ∧ ds.fares.getD i 0 ≤ 1000
  ∧ ∃ c : ℤ, ds.fares.getD i 0 = (c : ℚ) / 100 := by
  obtain ⟨p, _, _, _, _, _, hfare, _⟩ := generateDataset_some n now rs fuel ds h
  rw [hfare, getD_range_map _ n i hi]
  obtain ⟨hb1, hb2⟩ := round2cents_bounds _ (hdraw i).1 (hdraw i).2
  have hc1 : (5000 : ℚ) ≤ (round2cents (rs.fareDraw i) : ℚ) := by exact_mod_cast hb1
  have hc2 : (round2cents (rs.fareDraw i) : ℚ) ≤ 100000 := by exact_mod_cast hb2
  refine ⟨by linarith, by linarith, round2cents (rs.fareDraw i), rfl⟩

theorem generated_fare_bounds_witness :
    50 ≤ ((generateDataset 1 0
        ⟨fun _ => 0, fun _ => 0, fun _ => 1, fun _ => 0, fun _ => 100, fun _ => 0⟩ 0).getD
      default).fares.getD 0 0 ∧
    ((generateDataset 1 0
        ⟨fun _ => 0, fun _ => 0, fun _ => 1, fun _ => 0, fun _ => 100, fun _ => 0⟩ 0).getD
      default).fares.getD 0 0 ≤ 1000 ∧
    ∃ c : ℤ, ((generateDataset 1 0
        ⟨fun _ => 0, fun _ => 0, fun _ => 1, fun _ => 0, fun _ => 100, fun _ => 0⟩ 0).getD
      default).fares.getD 0 0 = (c : ℚ) / 100 :=
  generated_fare_bounds 1 0 0
    ⟨fun _ => 0, fun _ => 0, fun _ => 1, fun _ => 0, fun _ => 100, fun _ => 0⟩ _ rfl
    (fun _ => ⟨by norm_num, by norm_num⟩) 0 (by decide)

theorem pad2_length (m : ℕ) (h1 : 1 ≤ m) (h2 : m ≤ 31) : (pad2 m).length = 2 := by
  interval_cases m <;> decide

/-- C5: every generated update date is a valid calendar date, rendered as
zero-padded year-month-day with no time component, and its timestamp (hence
its day) lies in the 365-day window ending at generation time. -/
theorem generated_updated_date_valid (n now fuel : ℕ) (rs : Streams) (ds : Dataset)
    (h : generateDataset n now rs fuel = some ds) (hnow : totalSeconds ≤ now)
    (i : ℕ) (hi : i < n) :
    ∃ y m d,
      civilFromDays (updatedTimestamp now (rs.dateDraw i) / 86400) = (y, m, d)
      ∧ now - totalSeconds ≤ updatedTimestamp now (rs.dateDraw i)
      ∧ updatedTimestamp now (rs.dateDraw i) ≤ now
      ∧ (now - totalSeconds) / 86400 ≤ updatedTimestamp now (rs.dateDraw i) / 86400
      ∧ updatedTimestamp now (rs.dateDraw i) / 86400 ≤ now / 86400
      ∧ 1 ≤ m ∧ m ≤ 12 ∧ 1 ≤ d ∧ d ≤ daysInMonth y m ∧ 1970 ≤ y
      ∧ ds.dates.getD i "" = pad4 y ++ "-" ++ pad2 m ++ "-" ++ pad2 d
      ∧ (pad2 m).length = 2 ∧ (pad2 d).length = 2 := by
  obtain ⟨p, _, _, _, _, _, _, hdates⟩ := generateDataset_some n now rs fuel ds h
  obtain ⟨y, m, d, hcfd, hm1, hm12, hd1, hdim, hy⟩ :=
    civilFromDays_valid (updatedTimestamp now (rs.dateDraw i) / 86400)
  have hts_lb : now - totalSeconds ≤ updatedTimestamp now (rs.dateDraw i) := by
    unfold updatedTimestamp
    omega
  have hmodlt : rs.dateDraw i % totalSeconds < totalSeconds :=
    Nat.mod_lt _ (by decide)
  have hts_ub : updatedTimestamp now (rs.dateDraw i) ≤ now := by
    unfold updatedTimestamp at hmodlt ⊢
    unfold totalSeconds at hnow hmodlt ⊢
    omega
  have hd31 : d ≤ 31 := by
    have : daysInMonth y m ≤ 31 := by
      unfold daysInMonth
      split
      · split <;> omega
      · split <;> omega
    omega
  refine ⟨y, m, d, hcfd, hts_lb, hts_ub, Nat.div_le_div_right hts_lb,
    Nat.div_le_div_right hts_ub, hm1, hm12, hd1, hdim, hy, ?_,
    pad2_length m hm1 (by omega), pad2_length d hd1 hd31⟩
  rw [hdates, getD_range_map _ n i hi]
  unfold updatedDateStr
  rw [hcfd]
  rfl

theorem generated_updated_date_valid_witness :
    ∃ y m d,
      civilFromDays (updatedTimestamp 1760227200
          ((⟨fun _ => 0, fun _ => 0, fun _ => 1, fun _ => 0, fun _ => 0,
            fun _ => 12345⟩ : Streams).dateDraw 0) / 86400) = (y, m, d)
      ∧ 1760227200 - totalSeconds ≤ updatedTimestamp 1760227200
          ((⟨fun _ => 0, fun _ => 0, fun _ => 1, fun _ => 0, fun _ => 0,
            fun _ => 12345⟩ : Streams).dateDraw 0)
      ∧ updatedTimestamp 1760227200
          ((⟨fun _ => 0, fun _ => 0, fun _ => 1, fun _ => 0, fun _ => 0,
            fun _ => 12345⟩ : Streams).dateDraw 0) ≤ 1760227200
      ∧ (1760227200 - totalSeconds) / 86400 ≤ updatedTimestamp 1760227200
          ((⟨fun _ => 0, fun _ => 0, fun _ => 1, fun _ => 0, fun _ => 0,
            fun _ => 12345⟩ : Streams).dateDraw 0) / 86400
      ∧ updatedTimestamp 1760227200
          ((⟨fun _ => 0, fun _ => 0, fun _ => 1, fun _ => 0, fun _ => 0,
            fun _ => 12345⟩ : Streams).dateDraw 0) / 86400 ≤ 1760227200 / 86400
      ∧ 1 ≤ m ∧ m ≤ 12 ∧ 1 ≤ d ∧ d ≤ daysInMonth y m ∧ 1970 ≤ y
      ∧ ((generateDataset 1 1760227200
            ⟨fun _ => 0, fun _ => 0, fun _ => 1, fun _ => 0, fun _ => 0,
              fun _ => 12345⟩ 0).getD default).dates.getD 0 ""
          = pad4 y ++ "-" ++ pad2 m ++ "-" ++ pad2 d
      ∧ (pad2 m).length = 2 ∧ (pad2 d).length = 2 :=
  generated_updated_date_valid 1 1760227200 0
    ⟨fun _ => 0, fun _ => 0, fun _ => 1, fun _ => 0, fun _ => 0, fun _ => 12345⟩ _
    rfl (by decide) 0 (by decide)

/-- C6: the id column is exactly `0..n-1` in increasing order, and the
serialized rows appear in that same order. -/
theorem generated_ids_sequential (n now fuel : ℕ) (rs : Streams) (ds : Dataset)
    (h : generateDataset n now rs fuel = some ds) :
    ds.ids = List.range n
  ∧ List.Sorted (· < ·) ds.ids
  ∧ ds.ids.Nodup
  ∧ (∀ i, i < n → ds.ids.getD i 0 = i)
  ∧ (∀ i, i < n → (csvLines ds).getD (i + 1) "" = csvRow ds i
      ∧ (rowFields ds i).headD "" = toString i) := by
  obtain ⟨p, _, hids, _, _, _, _, _⟩ := generateDataset_some n now rs fuel ds h
  have hgetD : ∀ i, i < n → ds.ids.getD i 0 = i := by
    intro i hi
    rw [hids]
    have hlen : i < (List.range n).length := by simpa using hi
    rw [List.getD_eq_getElem _ _ hlen, List.getElem_range]
  refine ⟨hids, by rw [hids]; exact List.sorted_lt_range n,
    by rw [hids]; exact List.nodup_range n, hgetD, ?_⟩
  intro i hi
  have hlen : ds.ids.length = n := by rw [hids]; simp
  constructor
  · show ((List.range ds.ids.length).map (csvRow ds)).getD i "" = csvRow ds i
    rw [hlen]
    exact getD_range_map _ n i hi ""
  · show toString (ds.ids.getD i 0) = toString i
    rw [hgetD i hi]

theorem generated_ids_sequential_witness :
    ((generateDataset 2 0
        ⟨fun _ => 0, fun _ => 0, fun _ => 1, fun _ => 0, fun _ => 0, fun _ => 0⟩ 0).getD
      default).ids = List.range 2
  ∧ List.Sorted (· < ·) ((generateDataset 2 0
        ⟨fun _ => 0, fun _ => 0, fun _ => 1, fun _ => 0, fun _ => 0, fun _ => 0⟩ 0).getD
      default).ids
  ∧ ((generateDataset 2 0
        ⟨fun _ => 0, fun _ => 0, fun _ => 1, fun _ => 0, fun _ => 0, fun _ => 0⟩ 0).getD
      default).ids.Nodup
  ∧ (∀ i, i < 2 → ((generateDataset 2 0
        ⟨fun _ => 0, fun _ => 0, fun _ => 1, fun _ => 0, fun _ => 0, fun _ => 0⟩ 0).getD
      default).ids.getD i 0 = i)
  ∧ (∀ i, i < 2 → (csvLines ((generateDataset 2 0
        ⟨fun _ => 0, fun _ => 0, fun _ => 1, fun _ => 0, fun _ => 0, fun _ => 0⟩ 0).getD
      default)).getD (i + 1) "" = csvRow ((generateDataset 2 0
        ⟨fun _ => 0, fun _ => 0, fun _ => 1, fun _ => 0, fun _ => 0, fun _ => 0⟩ 0).getD
      default) i
      ∧ (rowFields ((generateDataset 2 0
        ⟨fun _ => 0, fun _ => 0, fun _ => 1, fun _ => 0, fun _ => 0, fun _ => 0⟩ 0).getD
      default) i).headD "" = toString i) :=
  generated_ids_sequential 2 0 0
    ⟨fun _ => 0, fun _ => 0, fun _ => 1, fun _ => 0, fun _ => 0, fun _ => 0⟩ _ rfl

/-- C7: the serialized file is a header line with the exact six column names
followed by one comma-separated six-field line per record, no index column. -/
theorem generated_file_shape (n now fuel : ℕ) (rs : Streams) (ds : Dataset)
    (h : generateDataset n now rs fuel = some ds) :
    (csvLines ds).length = n + 1
  ∧ (csvLines ds).getD 0 "" = "id,airline_name,source,destination,fare,updated_date"
  ∧ ∀ i, i < n → (csvLines ds).getD (i + 1) "" = String.intercalate "," (rowFields ds i)
      ∧ (rowFields ds i).length = 6 := by
  obtain ⟨p, _, hids, _, _, _, _, _⟩ := generateDataset_some n now rs fuel ds h
  have hlen : ds.ids.length = n := by rw [hids]; simp
  refine ⟨by simp [csvLines, hlen], rfl, ?_⟩
  intro i hi
  constructor
  · show ((List.range ds.ids.length).map (csvRow ds)).getD i "" = _
    rw [hlen, getD_range_map _ n i hi ""]
    rfl
  · rfl

theorem generated_file_shape_witness :
    (csvLines ((generateDataset 2 0
        ⟨fun _ => 0, fun _ => 0, fun _ => 1, fun _ => 0, fun _ => 0, fun _ => 0⟩ 0).getD
      default)).length = 2 + 1
  ∧ (csvLines ((generateDataset 2 0
        ⟨fun _ => 0, fun _ => 0, fun _ => 1, fun _ => 0, fun _ => 0, fun _ => 0⟩ 0).getD
      default)).getD 0 "" = "id,airline_name,source,destination,fare,updated_date"
  ∧ ∀ i, i < 2 → (csvLines ((generateDataset 2 0
        ⟨fun _ => 0, fun _ => 0, fun _ => 1, fun _ => 0, fun _ => 0, fun _ => 0⟩ 0).getD
      default)).getD (i + 1) "" = String.intercalate "," (rowFields ((generateDataset 2 0
        ⟨fun _ => 0, fun _ => 0, fun _ => 1, fun _ => 0, fun _ => 0, fun _ => 0⟩ 0).getD
      default) i)
      ∧ (rowFields ((generateDataset 2 0
        ⟨fun _ => 0, fun _ => 0, fun _ => 1, fun _ => 0, fun _ => 0, fun _ => 0⟩ 0).getD
      default) i).length = 6 :=
  generated_file_shape 2 0 0
    ⟨fun _ => 0, fun _ => 0, fun _ => 1, fun _ => 0, fun _ => 0, fun _ => 0⟩ _ rfl

/-- C9: an I/O error in the write step is caught, reported with its cause,
and the function falls through normally — exactly one write attempt, no
retry, no cleanup of a partial file. -/
theorem save_error_handling (f e : String) (n : ℕ) :
    (saveToCsv f n (.ioError e)).raised = false
  ∧ (saveToCsv f n (.ioError e)).printed = ["An error occurred while saving the CSV: " ++ e]
  ∧ (saveToCsv f n (.ioError e)).writeAttempts = 1
  ∧ (saveToCsv f n (.ioError e)).deletedPartialFile = false
  ∧ (saveToCsv f n (.ok 0)).writeAttempts = 1 :=
  ⟨rfl, rfl, rfl, rfl, rfl⟩

/-- C10: with zero samples the run succeeds with all-empty columns, the
repair loop needs no iterations (zero fuel suffices: an empty array has no
collision), and the file is the header alone. -/
theorem generated_empty (now : ℕ) (rs : Streams) (fuel : ℕ) :
    generateDataset 0 now rs fuel = some ⟨[], [], [], [], [], []⟩
  ∧ generateDataset 0 now rs 0 = some ⟨[], [], [], [], [], []⟩
  ∧ anyCollision [] [] = false
  ∧ csvLines ⟨[], [], [], [], [], []⟩ = [header] := by
  refine ⟨?_, rfl, rfl, rfl⟩
  cases fuel with
  | zero => rfl
  | succ f => rfl

/-- C8 counterexample: the serialized fare field for the fare value 723.4 is
the string "723.4", not "723.40" — pandas does not pad to two fractional
digits. -/
theorem fare_two_decimals_cex :
    (rowFields ⟨[0], ["AirTravel"], ["LAX"], ["JFK"], [7234/10], ["2025-10-12"]⟩ 0).getD 4 ""
      = "723.4"
  ∧ (rowFields ⟨[0], ["AirTravel"], ["LAX"], ["JFK"], [7234/10], ["2025-10-12"]⟩ 0).getD 4 ""
      ≠ "723.40" := by
  have hfield : (rowFields ⟨[0], ["AirTravel"], ["LAX"], ["JFK"], [7234/10],
      ["2025-10-12"]⟩ 0).getD 4 "" = fareStr (7234/10) := rfl
  have h : ⌊(7234/10 : ℚ) * 100⌋ = 72340 := by norm_num
  rw [hfield]
  unfold fareStr
  rw [h]
  constructor
  · decide
  · decide

/-- C8 amended: every serialized fare field is an integer part, a point, and
one or two fractional digits (trailing hundredths zeros are dropped). -/
theorem fare_decimals_amended (q : ℚ) :
    ∃ ip fp : String, fareStr q = ip ++ "." ++ fp ∧ 1 ≤ fp.length ∧ fp.length ≤ 2 := by
  unfold fareStr
  split
  · exact ⟨_, "0", rfl, le_refl 1, Nat.le_succ 1⟩
  · split
    · exact ⟨_, String.mk [Nat.digitChar ((⌊q * 100⌋ / 10 % 10).toNat)], rfl,
        le_refl 1, Nat.le_succ 1⟩
    · exact ⟨_, String.mk [Nat.digitChar ((⌊q * 100⌋ / 10 % 10).toNat),
        Nat.digitChar ((⌊q * 100⌋ % 10).toNat)], rfl, Nat.le_succ 1, le_refl 2⟩

end AirlineData
